import Mathlib

/-!
Shallow embedding of `src/viewer/light_field_widget.cpp` (LightFieldWidget),
an interactive light-field viewer widget.

Modelling choices:
* Floating-point state (`focus`, `aperture`, `cameraPosition`, drag deltas)
  is modelled over `ℚ`: the operations under study (assignment, addition,
  division by a positive size, `min`/`max` clamping) are exact.
* A decoded `QImage` is modelled by `Image`: a null flag (decode failure),
  its dimensions, and three channel functions.  `QColor` guarantees channel
  values in `[0,255]`; the `(uint8_t)` casts in the copy loop are kept as
  `% 256`.
* The flat `std::vector<uint8_t>` buffer is modelled as a byte memory
  `Nat → Nat`, zero everywhere initially (value-initialisation), written by
  `store`; the nested `k`/`y`/`x` loops become folds over `List.range`.
* `std::abort` paths are modelled by `Option`: `none` means the process
  aborted and no texture was produced.
-/

/-- A decoded `QImage`: null flag, dimensions and RGB channel functions. -/
structure Image where
  isNull : Bool
  width : Nat
  height : Nat
  red : Nat → Nat → Nat
  green : Nat → Nat → Nat
  blue : Nat → Nat → Nat

/-- Channel accessor used to state tiling claims: channel 0 is red,
1 is green, anything else is blue. -/
def Image.channel (img : Image) (c x y : Nat) : Nat :=
  if c = 0 then img.red x y else if c = 1 then img.green x y else img.blue x y

/-- `QColor` invariant: every channel value fits in a byte. -/
def ValidImage (img : Image) : Prop :=
  ∀ x y, img.red x y < 256 ∧ img.green x y < 256 ∧ img.blue x y < 256

/-- The 3D texture object produced by `setLightField`:
`setSize(imageW, imageH, rows*cols)` plus the uploaded byte buffer. -/
structure Texture where
  width : Nat
  height : Nat
  depth : Nat
  data : Nat → Nat

/-- Mouse buttons relevant to the widget (`Qt::MouseButton`). -/
inductive Button where
  | left
  | right
  | middle
deriving DecidableEq

/-- The widget state: fields of `LightFieldWidget` observable in the claims. -/
structure WidgetState where
  focus : ℚ
  aperture : ℚ
  lfRows : Nat
  lfCols : Nat
  imageSize : Nat × Nat
  cameraPosition : ℚ × ℚ
  isClick : Bool
  prevMouseClick : ℤ × ℤ
  lightFieldTexture : Option Texture

/-- Constructor defaults: `focus(0.0f), aperture(5.0f), lfRows(0), lfCols(0),
imageSize(1, 1), cameraPosition(0.5f, 0.5f), isClick(false)`; no texture. -/
def initState : WidgetState where
  focus := 0
  aperture := 5
  lfRows := 0
  lfCols := 0
  imageSize := (1, 1)
  cameraPosition := (1/2, 1/2)
  isClick := false
  prevMouseClick := (0, 0)
  lightFieldTexture := none

/-- `sizeHint`: `h = 512; w = h * imageSize.width() / imageSize.height()`,
returned as `QSize(w, h)`, i.e. (width, height). -/
def sizeHint (s : WidgetState) : Nat × Nat :=
  (512 * s.imageSize.1 / s.imageSize.2, 512)

/-- `minimumSizeHint` just returns `sizeHint`. -/
def minimumSizeHint (s : WidgetState) : Nat × Nat :=
  sizeHint s

/-- `mousePressEvent`: on the left button, set `isClick` and record the
press position in `prevMouseClick`. -/
def mousePressEvent (s : WidgetState) (button : Button) (pos : ℤ × ℤ) :
    WidgetState :=
  if button = Button.left then
    { s with isClick := true, prevMouseClick := pos }
  else s

/-- `mouseMoveEvent`: if the left button is held and `isClick` is set,
add `(Δx, Δy) / min(width, height)` to the camera position, clamping each
axis to `[0, 1]`; `prevMouseClick` is not updated. -/
def mouseMoveEvent (s : WidgetState) (leftHeld : Bool) (pos : ℤ × ℤ)
    (w h : ℤ) : WidgetState :=
  if leftHeld then
    if s.isClick then
      let size : ℚ := ((min w h : ℤ) : ℚ)
      let dx : ℚ := ((pos.1 - s.prevMouseClick.1 : ℤ) : ℚ) / size
      let dy : ℚ := ((pos.2 - s.prevMouseClick.2 : ℤ) : ℚ) / size
      { s with cameraPosition :=
          (max 0 (min (s.cameraPosition.1 + dx) 1),
           max 0 (min (s.cameraPosition.2 + dy) 1)) }
    else s
  else s

/-- `mouseReleaseEvent`: on the left button, clear `isClick`. -/
def mouseReleaseEvent (s : WidgetState) (button : Button) : WidgetState :=
  if button = Button.left then { s with isClick := false } else s

/-- One widget input event: press/release carry the event's button; a move
carries whether the left button is among the held buttons, the pointer
position, and the widget's current width and height. -/
inductive Event where
  | press (button : Button) (pos : ℤ × ℤ)
  | move (leftHeld : Bool) (pos : ℤ × ℤ) (w h : ℤ)
  | release (button : Button)

/-- Dispatch one event to the corresponding handler. -/
def applyEvent (s : WidgetState) : Event → WidgetState
  | Event.press b p => mousePressEvent s b p
  | Event.move held p w h => mouseMoveEvent s held p w h
  | Event.release b => mouseReleaseEvent s b

/-- Apply a sequence of events in order. -/
def applyEvents (s : WidgetState) (evs : List Event) : WidgetState :=
  evs.foldl applyEvent s

/-- `setFocusPoint(value)`: `focus = value`. -/
def setFocusPoint (s : WidgetState) (value : ℚ) : WidgetState :=
  { s with focus := value }

/-- `setApertureSize(value)`: `aperture = value`. -/
def setApertureSize (s : WidgetState) (value : ℚ) : WidgetState :=
  { s with aperture := value }

/-- `focusPoint()` getter. -/
def focusPoint (s : WidgetState) : ℚ := s.focus

/-- `apertureSize()` getter. -/
def apertureSize (s : WidgetState) : ℚ := s.aperture

/-- One GPU call issued by `paintGL`. -/
inductive GLOp where
  | clear
  | bindShader
  | setUniformF (uniform : String) (v : ℚ)
  | setUniformI (uniform : String) (v : Int)
  | bindTexture (unit : Nat)
  | bindVao
  | draw (indexCount : Nat)
  | releaseVao
  | releaseTexture (unit : Nat)
deriving DecidableEq

/-- `paintGL` as the trace of GPU calls it issues: it returns immediately
when `lightFieldTexture` is not loaded; otherwise it clears, binds the
shader, sets the uniforms, binds the texture and draws the quad. -/
def paintGL (s : WidgetState) : List GLOp :=
  match s.lightFieldTexture with
  | none => []
  | some _ =>
    [GLOp.clear,
     GLOp.bindShader,
     GLOp.setUniformF "focusPoint" s.focus,
     GLOp.setUniformF "apertureSize" s.aperture,
     GLOp.setUniformF "cameraPositionX" s.cameraPosition.1,
     GLOp.setUniformF "cameraPositionY" s.cameraPosition.2,
     GLOp.bindTexture 0,
     GLOp.setUniformI "textureImages" 0,
     GLOp.setUniformF "focusPoint" s.focus,
     GLOp.setUniformF "apertureSize" s.aperture,
     GLOp.setUniformI "rows" (s.lfRows : Int),
     GLOp.setUniformI "cols" (s.lfCols : Int),
     GLOp.bindVao,
     GLOp.draw 6,
     GLOp.releaseVao,
     GLOp.releaseTexture 0]

/-- Byte memory update: `m[i] = v`. -/
def store (m : Nat → Nat) (i v : Nat) : Nat → Nat :=
  fun j => if j = i then v else m j

/-- Body of the innermost copy loop: the three buffer writes
`imageData[((k*H + y)*W + x)*3 + 0/1/2] = (uint8_t) red/green/blue`. -/
def writePixel (img : Image) (k y x W H : Nat) (m : Nat → Nat) : Nat → Nat :=
  store (store (store m
    (((k * H + y) * W + x) * 3 + 0) (img.red x y % 256))
    (((k * H + y) * W + x) * 3 + 1) (img.green x y % 256))
    (((k * H + y) * W + x) * 3 + 2) (img.blue x y % 256)

/-- The `for (x = 0; x < imageW; x++)` loop for one row `y` of view `k`. -/
def writeRow (img : Image) (k y W H : Nat) (m : Nat → Nat) : Nat → Nat :=
  (List.range W).foldl (fun b x => writePixel img k y x W H b) m

/-- The `for (y = 0; y < imageH; y++)` loop for view `k`. -/
def writeView (img : Image) (k W H : Nat) (m : Nat → Nat) : Nat → Nat :=
  (List.range H).foldl (fun b y => writeRow img k y W H b) m

/-- The `for (k = 0; k < viewInfos.size(); k++)` loop starting at view index
`k`: decode each remaining image, abort (`none`) when its dimensions differ
from the first image's `(W, H)`, otherwise copy it into the buffer. -/
def copyViews : List Image → Nat → Nat → Nat → (Nat → Nat) →
    Option (Nat → Nat)
  | [], _, _, _, m => some m
  | img :: rest, k, W, H, m =>
    if img.width = W ∧ img.height = H then
      copyViews rest (k + 1) W H (writeView img k W H m)
    else none

/-- The copy loop without the dimension check: used to describe the buffer
`copyViews` produces when every view has the reference dimensions. -/
def applyViews : List Image → Nat → Nat → Nat → (Nat → Nat) → (Nat → Nat)
  | [], _, _, _, m => m
  | img :: rest, k, W, H, m => applyViews rest (k + 1) W H (writeView img k W H m)

/-- `setLightField(viewInfos, rows, cols)`: decode the first image (abort on
failure), record `lfRows`, `lfCols` and `imageSize`, build the tiled buffer
from a zero-initialised byte vector, and replace the 3D texture of size
`(W, H, rows*cols)` with the buffer's data.  `none` models `std::abort`. -/
def setLightField (s : WidgetState) (views : List Image) (rows cols : Nat) :
    Option WidgetState :=
  match views with
  | [] => none
  | first :: rest =>
    if first.isNull then none
    else
      match copyViews (first :: rest) 0 first.width first.height
          (fun _ => 0) with
      | none => none
      | some buf =>
        some { s with
          lfRows := rows
          lfCols := cols
          imageSize := (first.width, first.height)
          lightFieldTexture :=
            some ⟨first.width, first.height, rows * cols, buf⟩ }

/-! ### Buffer index arithmetic -/

lemma mul_add_lt_inj (W a b x y : Nat) (hx : x < W) (hy : y < W)
    (h : a * W + x = b * W + y) : a = b ∧ x = y := by
  have hW : 0 < W := lt_of_le_of_lt (Nat.zero_le x) hx
  have ha : (a * W + x) / W = a := by
    rw [Nat.mul_comm a W, Nat.mul_add_div hW, Nat.div_eq_of_lt hx,
      Nat.add_zero]
  have hb : (b * W + y) / W = b := by
    rw [Nat.mul_comm b W, Nat.mul_add_div hW, Nat.div_eq_of_lt hy,
      Nat.add_zero]
  have hab : a = b := by rw [← ha, ← hb, h]
  subst hab
  exact ⟨rfl, by omega⟩

lemma tileIndex_lt (W H k y x c : Nat) (hy : y < H) (hx : x < W)
    (hc : c < 3) :
    ((k * H + y) * W + x) * 3 + c < (k + 1) * H * W * 3 := by
  have h1 : (k * H + y) * W + x < (k + 1) * H * W := by
    have h2 : k * H + y + 1 ≤ (k + 1) * H := by
      have : (k + 1) * H = k * H + H := by ring
      omega
    calc (k * H + y) * W + x < (k * H + y) * W + W := by omega
      _ = (k * H + y + 1) * W := by ring
      _ ≤ ((k + 1) * H) * W := mul_le_mul_right' h2 W
  have h3 : (k * H + y) * W + x + 1 ≤ (k + 1) * H * W := h1
  calc ((k * H + y) * W + x) * 3 + c < ((k * H + y) * W + x + 1) * 3 := by
        omega
    _ ≤ (k + 1) * H * W * 3 := mul_le_mul_right' h3 3

lemma tileIndex_ge (W H k y x c : Nat) :
    k * H * W * 3 ≤ ((k * H + y) * W + x) * 3 + c := by
  have h1 : k * H * W ≤ (k * H + y) * W + x :=
    le_trans (mul_le_mul_right' (Nat.le_add_right (k * H) y) W)
      (Nat.le_add_right _ x)
  calc k * H * W * 3 ≤ ((k * H + y) * W + x) * 3 := mul_le_mul_right' h1 3
    _ ≤ ((k * H + y) * W + x) * 3 + c := Nat.le_add_right _ c

lemma viewBase_mono (W H k k' : Nat) (h : k ≤ k') :
    k * H * W * 3 ≤ k' * H * W * 3 :=
  mul_le_mul_right' (mul_le_mul_right' (mul_le_mul_right' h H) W) 3

/-! ### Reading back single writes -/

lemma store_hit (m : Nat → Nat) (i v : Nat) : store m i v i = v := by
  simp [store]

lemma store_miss (m : Nat → Nat) (i v j : Nat) (h : j ≠ i) :
    store m i v j = m j := by
  simp [store, h]

lemma writePixel_red (img : Image) (k y x W H : Nat) (m : Nat → Nat) :
    writePixel img k y x W H m (((k * H + y) * W + x) * 3 + 0) =
      img.red x y % 256 := by
  unfold writePixel
  rw [store_miss _ _ _ _ (by omega), store_miss _ _ _ _ (by omega), store_hit]

lemma writePixel_green (img : Image) (k y x W H : Nat) (m : Nat → Nat) :
    writePixel img k y x W H m (((k * H + y) * W + x) * 3 + 1) =
      img.green x y % 256 := by
  unfold writePixel
  rw [store_miss _ _ _ _ (by omega), store_hit]

lemma writePixel_blue (img : Image) (k y x W H : Nat) (m : Nat → Nat) :
    writePixel img k y x W H m (((k * H + y) * W + x) * 3 + 2) =
      img.blue x y % 256 := by
  unfold writePixel
  rw [store_hit]

lemma writePixel_channel (img : Image) (k y x W H c : Nat) (hc : c < 3)
    (m : Nat → Nat) :
    writePixel img k y x W H m (((k * H + y) * W + x) * 3 + c) =
      Image.channel img c x y % 256 := by
  interval_cases c
  · simpa [Image.channel] using writePixel_red img k y x W H m
  · simpa [Image.channel] using writePixel_green img k y x W H m
  · simpa [Image.channel] using writePixel_blue img k y x W H m

lemma writePixel_frame (img : Image) (k y x W H : Nat) (m : Nat → Nat)
    (j : Nat) (h : ∀ c, c < 3 → j ≠ ((k * H + y) * W + x) * 3 + c) :
    writePixel img k y x W H m j = m j := by
  simp only [writePixel, store]
  rw [if_neg (h 2 (by omega)), if_neg (h 1 (by omega)),
    if_neg (h 0 (by omega))]

/-! ### Reading back the row loop -/

lemma foldRow_frame (img : Image) (k y W H : Nat) (xs : List Nat) :
    ∀ (m : Nat → Nat) (j : Nat),
      (∀ x ∈ xs, ∀ c, c < 3 → j ≠ ((k * H + y) * W + x) * 3 + c) →
      (xs.foldl (fun b x => writePixel img k y x W H b) m) j = m j := by
  induction xs with
  | nil => intro m j _; rfl
  | cons x xs ih =>
    intro m j h
    rw [List.foldl_cons,
      ih _ j (fun x' hx' => h x' (List.mem_cons_of_mem _ hx'))]
    exact writePixel_frame img k y x W H m j (h x (List.mem_cons_self x xs))

lemma foldRow_value (img : Image) (k y W H c : Nat) (hc : c < 3)
    (xs : List Nat) :
    ∀ (m : Nat → Nat) (x0 : Nat), x0 ∈ xs →
      (xs.foldl (fun b x => writePixel img k y x W H b) m)
        (((k * H + y) * W + x0) * 3 + c) = Image.channel img c x0 y % 256 := by
  induction xs with
  | nil => intro m x0 h; cases h
  | cons x xs ih =>
    intro m x0 hmem
    rw [List.foldl_cons]
    by_cases hx : x0 ∈ xs
    · exact ih _ x0 hx
    · have hx0 : x0 = x := by
        rcases List.mem_cons.mp hmem with h | h
        · exact h
        · exact absurd h hx
      subst hx0
      have hframe : ∀ x' ∈ xs, ∀ c', c' < 3 →
          ((k * H + y) * W + x0) * 3 + c ≠ ((k * H + y) * W + x') * 3 + c' := by
        intro x' hx' c' hc' hEq
        obtain ⟨hA, hcc⟩ := mul_add_lt_inj 3 _ _ c c' hc hc' hEq
        have hxx : x0 = x' := Nat.add_left_cancel hA
        exact hx (hxx ▸ hx')
      rw [foldRow_frame img k y W H xs _ _ hframe]
      exact writePixel_channel img k y x0 W H c hc m

lemma writeRow_value (img : Image) (k y W H x c : Nat) (hx : x < W)
    (hc : c < 3) (m : Nat → Nat) :
    writeRow img k y W H m (((k * H + y) * W + x) * 3 + c) =
      Image.channel img c x y % 256 :=
  foldRow_value img k y W H c hc (List.range W) m x (List.mem_range.mpr hx)

lemma writeRow_frame (img : Image) (k y W H : Nat) (m : Nat → Nat) (j : Nat)
    (h : ∀ x, x < W → ∀ c, c < 3 → j ≠ ((k * H + y) * W + x) * 3 + c) :
    writeRow img k y W H m j = m j :=
  foldRow_frame img k y W H (List.range W) m j
    (fun x hx => h x (List.mem_range.mp hx))

/-! ### Reading back the column loop -/

lemma foldView_frame (img : Image) (k W H : Nat) (ys : List Nat) :
    ∀ (m : Nat → Nat) (j : Nat),
      (∀ y ∈ ys, ∀ x, x < W → ∀ c, c < 3 →
        j ≠ ((k * H + y) * W + x) * 3 + c) →
      (ys.foldl (fun b y => writeRow img k y W H b) m) j = m j := by
  induction ys with
  | nil => intro m j _; rfl
  | cons y ys ih =>
    intro m j h
    rw [List.foldl_cons,
      ih _ j (fun y' hy' => h y' (List.mem_cons_of_mem _ hy'))]
    exact writeRow_frame img k y W H m j (h y (List.mem_cons_self y ys))

lemma foldView_value (img : Image) (k W H x c : Nat) (hx : x < W)
    (hc : c < 3) (ys : List Nat) :
    ∀ (m : Nat → Nat) (y0 : Nat), y0 ∈ ys →
      (ys.foldl (fun b y => writeRow img k y W H b) m)
        (((k * H + y0) * W + x) * 3 + c) = Image.channel img c x y0 % 256 := by
  induction ys with
  | nil => intro m y0 h; cases h
  | cons y ys ih =>
    intro m y0 hmem
    rw [List.foldl_cons]
    by_cases hy : y0 ∈ ys
    · exact ih _ y0 hy
    · have hy0 : y0 = y := by
        rcases List.mem_cons.mp hmem with h | h
        · exact h
        · exact absurd h hy
      subst hy0
      have hframe : ∀ y' ∈ ys, ∀ x', x' < W → ∀ c', c' < 3 →
          ((k * H + y0) * W + x) * 3 + c ≠
            ((k * H + y') * W + x') * 3 + c' := by
        intro y' hy' x' hx' c' hc' hEq
        obtain ⟨hA, hcc⟩ := mul_add_lt_inj 3 _ _ c c' hc hc' hEq
        obtain ⟨hB, hxx⟩ := mul_add_lt_inj W _ _ x x' hx hx' hA
        have hyy : y0 = y' := Nat.add_left_cancel hB
        exact hy (hyy ▸ hy')
      rw [foldView_frame img k W H ys _ _ hframe]
      exact writeRow_value img k y0 W H x c hx hc m

lemma writeView_value (img : Image) (k W H y x c : Nat) (hy : y < H)
    (hx : x < W) (hc : c < 3) (m : Nat → Nat) :
    writeView img k W H m (((k * H + y) * W + x) * 3 + c) =
      Image.channel img c x y % 256 :=
  foldView_value img k W H x c hx hc (List.range H) m y (List.mem_range.mpr hy)

lemma writeView_frame (img : Image) (k W H : Nat) (m : Nat → Nat) (j : Nat)
    (h : ∀ y, y < H → ∀ x, x < W → ∀ c, c < 3 →
      j ≠ ((k * H + y) * W + x) * 3 + c) :
    writeView img k W H m j = m j :=
  foldView_frame img k W H (List.range H) m j
    (fun y hy => h y (List.mem_range.mp hy))

/-! ### Reading back the view loop -/

lemma applyViews_frame_lo (W H : Nat) :
    ∀ (views : List Image) (k0 : Nat) (m : Nat → Nat) (j : Nat),
      j < k0 * H * W * 3 → applyViews views k0 W H m j = m j := by
  intro views
  induction views with
  | nil => intro k0 m j _; rfl
  | cons img rest ih =>
    intro k0 m j hj
    simp only [applyViews]
    rw [ih (k0 + 1) _ j
      (lt_of_lt_of_le hj (viewBase_mono W H k0 (k0 + 1) (Nat.le_succ k0)))]
    refine writeView_frame img k0 W H m j ?_
    intro y hy x hx c hc hEq
    have hge := tileIndex_ge W H k0 y x c
    omega

lemma applyViews_frame_hi (W H : Nat) :
    ∀ (views : List Image) (k0 : Nat) (m : Nat → Nat) (j : Nat),
      (k0 + views.length) * H * W * 3 ≤ j →
      applyViews views k0 W H m j = m j := by
  intro views
  induction views with
  | nil => intro k0 m j _; rfl
  | cons img rest ih =>
    intro k0 m j hj
    have hj' : (k0 + 1 + rest.length) * H * W * 3 ≤ j := by
      have he : k0 + 1 + rest.length = k0 + (img :: rest).length := by
        simp only [List.length_cons]
        omega
      rw [he]
      exact hj
    simp only [applyViews]
    rw [ih (k0 + 1) _ j hj']
    refine writeView_frame img k0 W H m j ?_
    intro y hy x hx c hc hEq
    have h1 := tileIndex_lt W H k0 y x c hy hx hc
    have h2 : (k0 + 1) * H * W * 3 ≤ (k0 + 1 + rest.length) * H * W * 3 :=
      viewBase_mono W H (k0 + 1) (k0 + 1 + rest.length) (by omega)
    omega

lemma applyViews_value (W H y x c : Nat) (hy : y < H) (hx : x < W)
    (hc : c < 3) :
    ∀ (views : List Image) (k0 i : Nat) (m : Nat → Nat)
      (hi : i < views.length),
      applyViews views k0 W H m ((((k0 + i) * H + y) * W + x) * 3 + c) =
        Image.channel (views.get ⟨i, hi⟩) c x y % 256 := by
  intro views
  induction views with
  | nil => intro k0 i m hi; exact absurd hi (by simp)
  | cons img rest ih =>
    intro k0 i m hi
    simp only [applyViews]
    cases i with
    | zero =>
      have hz : k0 + 0 = k0 := Nat.add_zero k0
      rw [hz]
      rw [applyViews_frame_lo W H rest (k0 + 1) _ _
        (tileIndex_lt W H k0 y x c hy hx hc)]
      exact writeView_value img k0 W H y x c hy hx hc m
    | succ n =>
      have he : k0 + (n + 1) = k0 + 1 + n := by omega
      rw [he]
      exact ih (k0 + 1) n _ (by simpa using hi)

lemma copyViews_ok (W H : Nat) :
    ∀ (views : List Image) (k0 : Nat) (m : Nat → Nat),
      (∀ img ∈ views, img.width = W ∧ img.height = H) →
      copyViews views k0 W H m = some (applyViews views k0 W H m) := by
  intro views
  induction views with
  | nil => intro k0 m _; rfl
  | cons img rest ih =>
    intro k0 m h
    have himg := h img (List.mem_cons_self img rest)
    simp only [copyViews, applyViews]
    rw [if_pos himg]
    exact ih (k0 + 1) _ (fun i hi => h i (List.mem_cons_of_mem _ hi))

lemma copyViews_mismatch (W H : Nat) :
    ∀ (views : List Image) (k0 : Nat) (m : Nat → Nat),
      (∃ img ∈ views, ¬(img.width = W ∧ img.height = H)) →
      copyViews views k0 W H m = none := by
  intro views
  induction views with
  | nil => intro k0 m h; exact absurd h (by simp)
  | cons img rest ih =>
    intro k0 m h
    by_cases himg : img.width = W ∧ img.height = H
    · simp only [copyViews]
      rw [if_pos himg]
      apply ih
      rcases h with ⟨bad, hmem, hbad⟩
      rcases List.mem_cons.mp hmem with h1 | h1
      · subst h1
        exact absurd himg hbad
      · exact ⟨bad, h1, hbad⟩
    · simp only [copyViews]
      rw [if_neg himg]

lemma ValidImage.channel_lt {img : Image} (h : ValidImage img) (c x y : Nat) :
    Image.channel img c x y < 256 := by
  rcases h x y with ⟨h1, h2, h3⟩
  unfold Image.channel
  split_ifs <;> assumption

/-! ### Camera-position invariant -/

/-- The virtual camera position lies in the unit square. -/
def InUnitSquare (s : WidgetState) : Prop :=
  0 ≤ s.cameraPosition.1 ∧ s.cameraPosition.1 ≤ 1 ∧
    0 ≤ s.cameraPosition.2 ∧ s.cameraPosition.2 ≤ 1

lemma applyEvent_inUnitSquare (s : WidgetState) (e : Event)
    (h : InUnitSquare s) : InUnitSquare (applyEvent s e) := by
  cases e with
  | press b p =>
    simp only [applyEvent, mousePressEvent]
    split_ifs <;> exact h
  | release b =>
    simp only [applyEvent, mouseReleaseEvent]
    split_ifs <;> exact h
  | move held p w hh =>
    simp only [applyEvent, mouseMoveEvent]
    split_ifs
    · exact ⟨le_max_left 0 _, max_le zero_le_one (min_le_right _ 1),
        le_max_left 0 _, max_le zero_le_one (min_le_right _ 1)⟩
    · exact h
    · exact h

lemma applyEvents_inUnitSquare (evs : List Event) :
    ∀ s : WidgetState, InUnitSquare s → InUnitSquare (applyEvents s evs) := by
  induction evs with
  | nil => intro s h; exact h
  | cons e evs ih =>
    intro s h
    exact ih _ (applyEvent_inUnitSquare s e h)

/-- C2: Camera-position clamp invariant: for every sequence of mouse
press/move/release events applied to the widget starting from the default
state, the virtual camera position stays in `[0,1] × [0,1]`. -/
theorem cameraPosition_clamped (evs : List Event) :
    0 ≤ (applyEvents initState evs).cameraPosition.1 ∧
      (applyEvents initState evs).cameraPosition.1 ≤ 1 ∧
      0 ≤ (applyEvents initState evs).cameraPosition.2 ∧
      (applyEvents initState evs).cameraPosition.2 ≤ 1 :=
  applyEvents_inUnitSquare evs initState
    ⟨by norm_num [initState], by norm_num [initState],
     by norm_num [initState], by norm_num [initState]⟩

/-- C7: Default state after construction: focus 0.0, aperture 5.0, and the
virtual camera at the center `(0.5, 0.5)` of the unit square. -/
theorem initState_defaults :
    initState.focus = 0 ∧ initState.aperture = 5 ∧
      initState.cameraPosition = (1/2, 1/2) :=
  ⟨rfl, rfl, rfl⟩

/-- C8: Accessor round-trip without validation: after `setFocusPoint v`,
`focusPoint` returns exactly `v`, and after `setApertureSize v`,
`apertureSize` returns exactly `v`, for every value `v` with no
restriction. -/
theorem accessor_roundtrip (s : WidgetState) (v : ℚ) :
    focusPoint (setFocusPoint s v) = v ∧
      apertureSize (setApertureSize s v) = v :=
  ⟨rfl, rfl⟩

/-- C5: No-draw-before-load: while no light-field texture exists, `paintGL`
issues no GPU calls at all — in particular no draw call, and nothing beyond
the clear. -/
theorem paintGL_noop_before_load (s : WidgetState)
    (h : s.lightFieldTexture = none) :
    paintGL s = [] ∧ (∀ n, GLOp.draw n ∉ paintGL s) ∧
      ∀ op ∈ paintGL s, op = GLOp.clear := by
  have hp : paintGL s = [] := by
    simp [paintGL, h]
  refine ⟨hp, ?_, ?_⟩ <;> simp [hp]

theorem paintGL_noop_before_load_witness :
    initState.lightFieldTexture = none ∧
      (paintGL initState = [] ∧ (∀ n, GLOp.draw n ∉ paintGL initState) ∧
        ∀ op ∈ paintGL initState, op = GLOp.clear) :=
  ⟨rfl, paintGL_noop_before_load initState rfl⟩

/-- C10: Implicit drag gating: press and release events never modify the
camera position (a left press only records the position and raises the
dragging flag, other presses do nothing), and a move event leaves the
camera position unchanged unless the left button is held and the dragging
flag is set. -/
theorem mouse_event_gating (s : WidgetState) (b : Button) (p q : ℤ × ℤ)
    (held : Bool) (w h : ℤ) :
    (mousePressEvent s b p).cameraPosition = s.cameraPosition ∧
    (mouseReleaseEvent s b).cameraPosition = s.cameraPosition ∧
    (held = false → mouseMoveEvent s held q w h = s) ∧
    (s.isClick = false → mouseMoveEvent s held q w h = s) ∧
    mousePressEvent s Button.left p =
      { s with isClick := true, prevMouseClick := p } ∧
    (b ≠ Button.left → mousePressEvent s b p = s) := by
  refine ⟨?_, ?_, ?_, ?_, ?_, ?_⟩
  · simp only [mousePressEvent]
    split_ifs <;> rfl
  · simp only [mouseReleaseEvent]
    split_ifs <;> rfl
  · intro hheld
    subst hheld
    rfl
  · intro hclick
    simp [mouseMoveEvent, hclick]
  · simp [mousePressEvent]
  · intro hb
    simp [mousePressEvent, hb]

theorem mouse_event_gating_witness :
    (mousePressEvent initState Button.right (1, 2)).cameraPosition =
        initState.cameraPosition ∧
      (mouseReleaseEvent initState Button.right).cameraPosition =
        initState.cameraPosition ∧
      (false = false → mouseMoveEvent initState false (3, 4) 5 6 = initState) ∧
      (initState.isClick = false →
        mouseMoveEvent initState false (3, 4) 5 6 = initState) ∧
      mousePressEvent initState Button.left (1, 2) =
        { initState with isClick := true, prevMouseClick := (1, 2) } ∧
      (Button.right ≠ Button.left →
        mousePressEvent initState Button.right (1, 2) = initState) :=
  mouse_event_gating initState Button.right (1, 2) (3, 4) false 5 6

/-! ### Drag deltas are relative to the press position -/

lemma applyEvents_cons (s : WidgetState) (e : Event) (evs : List Event) :
    applyEvents s (e :: evs) = applyEvents (applyEvent s e) evs :=
  rfl

lemma moveEvent_keeps_press_state (s : WidgetState) (held : Bool)
    (p : ℤ × ℤ) (w h : ℤ) :
    (mouseMoveEvent s held p w h).prevMouseClick = s.prevMouseClick ∧
      (mouseMoveEvent s held p w h).isClick = s.isClick := by
  simp only [mouseMoveEvent]
  split_ifs <;> exact ⟨rfl, rfl⟩

lemma moves_keep_press_state (moves : List ((ℤ × ℤ) × ℤ × ℤ)) :
    ∀ s : WidgetState,
      (applyEvents s
        (moves.map fun mv => Event.move true mv.1 mv.2.1 mv.2.2)).prevMouseClick
          = s.prevMouseClick ∧
      (applyEvents s
        (moves.map fun mv => Event.move true mv.1 mv.2.1 mv.2.2)).isClick
          = s.isClick := by
  induction moves with
  | nil => intro s; exact ⟨rfl, rfl⟩
  | cons mv moves ih =>
    intro s
    rw [List.map_cons, applyEvents_cons]
    rcases ih (applyEvent s (Event.move true mv.1 mv.2.1 mv.2.2)) with ⟨h1, h2⟩
    rcases moveEvent_keeps_press_state s true mv.1 mv.2.1 mv.2.2 with ⟨h3, h4⟩
    exact ⟨h1.trans h3, h2.trans h4⟩

/-- C3: Drag delta base point: after a left-button press at `p0` and any
sequence of left-held move events, the recorded press position is still
`p0` and the drag flag is still set, and the next move event at `q` with
widget size `w × h` updates the camera by adding
`(q - p0) / min w h` per axis to the current position and clamping each
axis to `[0, 1]` — the delta is relative to the original press position. -/
theorem mouseMove_delta_from_press (s : WidgetState) (p0 q : ℤ × ℤ)
    (w h : ℤ) (moves : List ((ℤ × ℤ) × ℤ × ℤ)) :
    let t := applyEvents (mousePressEvent s Button.left p0)
      (moves.map fun mv => Event.move true mv.1 mv.2.1 mv.2.2)
    t.prevMouseClick = p0 ∧ t.isClick = true ∧
      (mouseMoveEvent t true q w h).cameraPosition =
        (max 0 (min (t.cameraPosition.1 +
            ((q.1 - p0.1 : ℤ) : ℚ) / ((min w h : ℤ) : ℚ)) 1),
         max 0 (min (t.cameraPosition.2 +
            ((q.2 - p0.2 : ℤ) : ℚ) / ((min w h : ℤ) : ℚ)) 1)) := by
  intro t
  rcases moves_keep_press_state moves (mousePressEvent s Button.left p0)
    with ⟨h1, h2⟩
  have hprev : t.prevMouseClick = p0 := h1.trans rfl
  have hclick : t.isClick = true := h2.trans rfl
  refine ⟨hprev, hclick, ?_⟩
  simp [mouseMoveEvent, hclick, hprev]

/-! ### Loading claims -/

/-- C6: Size-hint computation: after a successful `setLightField` whose
first image has size `W × H`, `sizeHint` is `(512*W/H, 512)` with integer
truncation; `minimumSizeHint` always equals `sizeHint`; and in the default
state (no light field loaded, `imageSize = 1×1`) both are `512 × 512`. -/
theorem sizeHint_aspect (s s' : WidgetState) (views : List Image)
    (rows cols : Nat) (first : Image)
    (hhead : views.head? = some first)
    (hset : setLightField s views rows cols = some s') :
    sizeHint s' = (512 * first.width / first.height, 512) ∧
      minimumSizeHint s' = sizeHint s' ∧
      sizeHint initState = (512, 512) ∧
      minimumSizeHint initState = sizeHint initState := by
  refine ⟨?_, rfl, rfl, rfl⟩
  cases views with
  | nil => exact absurd hset (by simp [setLightField])
  | cons f rest =>
    have hf : f = first := by
      simpa using hhead
    subst hf
    simp only [setLightField] at hset
    by_cases hnull : f.isNull = true
    · rw [if_pos hnull] at hset
      cases hset
    · rw [if_neg hnull] at hset
      cases hcv : copyViews (f :: rest) 0 f.width f.height (fun _ => 0) with
      | none =>
        rw [hcv] at hset
        cases hset
      | some buf =>
        rw [hcv] at hset
        injection hset with hs
        subst hs
        simp [sizeHint]

/-- C4: Dimension-mismatch rejection: if any image in the grid has a width
or height differing from the first image's, `setLightField` takes the
fatal-error path (`none`): no texture is produced and nothing is uploaded.
-/
theorem setLightField_dim_mismatch (s : WidgetState) (views : List Image)
    (rows cols : Nat) (first : Image)
    (hhead : views.head? = some first)
    (hbad : ∃ img ∈ views,
      img.width ≠ first.width ∨ img.height ≠ first.height) :
    setLightField s views rows cols = none := by
  cases views with
  | nil => rfl
  | cons f rest =>
    have hf : f = first := by
      simpa using hhead
    subst hf
    simp only [setLightField]
    by_cases hnull : f.isNull = true
    · rw [if_pos hnull]
    · rw [if_neg hnull]
      rw [copyViews_mismatch f.width f.height (f :: rest) 0 (fun _ => 0) ?_]
      rcases hbad with ⟨bad, hmem, hb⟩
      refine ⟨bad, hmem, ?_⟩
      tauto

/-- C1: Tiling correctness of `setLightField`: for a valid grid of
`rows*cols` decodable images, all of the first image's size `W × H` and
with byte-valued channels, the produced buffer satisfies
`buffer[((k*H + y)*W + x)*3 + c] = channel c of pixel (x, y) of image k`
for every view index `k`, pixel `(x, y)` and channel `c` (0 red, 1 green,
2 blue). -/
theorem setLightField_tiling (s : WidgetState) (views : List Image)
    (rows cols : Nat) (first : Image)
    (hhead : views.head? = some first)
    (hnull : first.isNull = false)
    (hdim : ∀ img ∈ views,
      img.width = first.width ∧ img.height = first.height)
    (hvalid : ∀ img ∈ views, ValidImage img)
    (hlen : views.length = rows * cols)
    (k y x c : Nat) (hk : k < views.length)
    (hy : y < first.height) (hx : x < first.width) (hc : c < 3) :
    ∃ s' tex, setLightField s views rows cols = some s' ∧
      s'.lightFieldTexture = some tex ∧
      tex.data (((k * first.height + y) * first.width + x) * 3 + c) =
        Image.channel (views.get ⟨k, hk⟩) c x y := by
  cases views with
  | nil => exact absurd hk (by simp)
  | cons f rest =>
    have hf : f = first := by simpa using hhead
    subst hf
    simp only [setLightField]
    rw [if_neg (by simp [hnull])]
    rw [copyViews_ok f.width f.height (f :: rest) 0 (fun _ => 0) hdim]
    refine ⟨_, _, rfl, rfl, ?_⟩
    dsimp only
    rw [show ((k * f.height + y) * f.width + x) * 3 + c =
        (((0 + k) * f.height + y) * f.width + x) * 3 + c by norm_num]
    rw [applyViews_value f.width f.height y x c hy hx hc
      (f :: rest) 0 k (fun _ => 0) hk]
    exact Nat.mod_eq_of_lt
      ((hvalid _ (List.get_mem (f :: rest) k hk)).channel_lt c x y)

/-- C9: Implicit zero-fill of missing views: when `setLightField` is called
with fewer images than `rows*cols`, only the first `views.length` depth
layers are written; every byte of the remaining layers of the buffer is 0,
because the buffer is value-initialised to zero and the copy loop iterates
over the image list only. -/
theorem setLightField_zero_fill (s : WidgetState) (views : List Image)
    (rows cols : Nat) (first : Image)
    (hhead : views.head? = some first)
    (hnull : first.isNull = false)
    (hdim : ∀ img ∈ views,
      img.width = first.width ∧ img.height = first.height)
    (hlen : views.length < rows * cols)
    (i : Nat)
    (hlo : views.length * first.height * first.width * 3 ≤ i)
    (hhi : i < rows * cols * first.height * first.width * 3) :
    ∃ s' tex, setLightField s views rows cols = some s' ∧
      s'.lightFieldTexture = some tex ∧ tex.data i = 0 := by
  cases views with
  | nil => exact absurd hhead (by simp)
  | cons f rest =>
    have hf : f = first := by simpa using hhead
    subst hf
    simp only [setLightField]
    rw [if_neg (by simp [hnull])]
    rw [copyViews_ok f.width f.height (f :: rest) 0 (fun _ => 0) hdim]
    refine ⟨_, _, rfl, rfl, ?_⟩
    dsimp only
    have hb : (0 + (f :: rest).length) * f.height * f.width * 3 ≤ i := by
      simpa using hlo
    rw [applyViews_frame_hi f.width f.height (f :: rest) 0 (fun _ => 0) i hb]

/-! ### Concrete witnesses -/

/-- A 2×1 test image with constant channels (1, 2, 3). -/
def imgA : Image :=
  ⟨false, 2, 1, fun _ _ => 1, fun _ _ => 2, fun _ _ => 3⟩

/-- A 2×1 test image with constant channels (4, 5, 6). -/
def imgB : Image :=
  ⟨false, 2, 1, fun _ _ => 4, fun _ _ => 5, fun _ _ => 6⟩

/-- A 3×1 test image, deliberately wider than `imgA`. -/
def imgC : Image :=
  ⟨false, 3, 1, fun _ _ => 7, fun _ _ => 8, fun _ _ => 9⟩

theorem setLightField_tiling_witness :
    ([imgA, imgB].head? = some imgA) ∧
      imgA.isNull = false ∧
      (∀ img ∈ [imgA, imgB],
        img.width = imgA.width ∧ img.height = imgA.height) ∧
      (∀ img ∈ [imgA, imgB], ValidImage img) ∧
      [imgA, imgB].length = 2 * 1 ∧
      1 < [imgA, imgB].length ∧ 0 < imgA.height ∧ 1 < imgA.width ∧ 2 < 3 ∧
      ∃ s' tex, setLightField initState [imgA, imgB] 2 1 = some s' ∧
        s'.lightFieldTexture = some tex ∧
        tex.data (((1 * imgA.height + 0) * imgA.width + 1) * 3 + 2) =
          Image.channel ([imgA, imgB].get ⟨1, by decide⟩) 2 1 0 :=
  ⟨rfl, rfl,
    by
      intro img hm
      simp only [List.mem_cons, List.not_mem_nil, or_false] at hm
      rcases hm with h | h <;> subst h <;> exact ⟨rfl, rfl⟩,
    by
      intro img hm
      simp only [List.mem_cons, List.not_mem_nil, or_false] at hm
      rcases hm with h | h <;> subst h <;> intro x y <;>
        refine ⟨?_, ?_, ?_⟩ <;> norm_num [imgA, imgB],
    rfl, by decide, by decide, by decide, by decide,
    setLightField_tiling initState [imgA, imgB] 2 1 imgA rfl rfl
      (by
        intro img hm
        simp only [List.mem_cons, List.not_mem_nil, or_false] at hm
        rcases hm with h | h <;> subst h <;> exact ⟨rfl, rfl⟩)
      (by
        intro img hm
        simp only [List.mem_cons, List.not_mem_nil, or_false] at hm
        rcases hm with h | h <;> subst h <;> intro x y <;>
          refine ⟨?_, ?_, ?_⟩ <;> norm_num [imgA, imgB])
      rfl 1 0 1 2 (by decide) (by decide) (by decide) (by decide)⟩

theorem setLightField_dim_mismatch_witness :
    ([imgA, imgC].head? = some imgA) ∧
      (∃ img ∈ [imgA, imgC],
        img.width ≠ imgA.width ∨ img.height ≠ imgA.height) ∧
      setLightField initState [imgA, imgC] 1 2 = none :=
  ⟨rfl, ⟨imgC, by simp, Or.inl (by decide)⟩,
    setLightField_dim_mismatch initState [imgA, imgC] 1 2 imgA rfl
      ⟨imgC, by simp, Or.inl (by decide)⟩⟩

theorem sizeHint_aspect_witness :
    ([imgA].head? = some imgA) ∧
      setLightField initState [imgA] 1 1 =
        some ((setLightField initState [imgA] 1 1).getD initState) ∧
      (sizeHint ((setLightField initState [imgA] 1 1).getD initState) =
          (512 * imgA.width / imgA.height, 512) ∧
        minimumSizeHint ((setLightField initState [imgA] 1 1).getD initState) =
          sizeHint ((setLightField initState [imgA] 1 1).getD initState) ∧
        sizeHint initState = (512, 512) ∧
        minimumSizeHint initState = sizeHint initState) :=
  ⟨rfl, rfl, sizeHint_aspect initState _ [imgA] 1 1 imgA rfl rfl⟩

theorem setLightField_zero_fill_witness :
    ([imgA].head? = some imgA) ∧
      imgA.isNull = false ∧
      (∀ img ∈ [imgA], img.width = imgA.width ∧ img.height = imgA.height) ∧
      [imgA].length < 2 * 1 ∧
      [imgA].length * imgA.height * imgA.width * 3 ≤ 6 ∧
      6 < 2 * 1 * imgA.height * imgA.width * 3 ∧
      ∃ s' tex, setLightField initState [imgA] 2 1 = some s' ∧
        s'.lightFieldTexture = some tex ∧ tex.data 6 = 0 :=
  ⟨rfl, rfl,
    by
      intro img hm
      simp only [List.mem_cons, List.not_mem_nil, or_false] at hm
      subst hm
      exact ⟨rfl, rfl⟩,
    by decide, by decide, by decide,
    setLightField_zero_fill initState [imgA] 2 1 imgA rfl rfl
      (by
        intro img hm
        simp only [List.mem_cons, List.not_mem_nil, or_false] at hm
        subst hm
        exact ⟨rfl, rfl⟩)
      (by decide) 6 (by decide) (by decide)⟩
